import Mathlib

/-!
Shallow embedding of the MarianMT-to-ONNX conversion pipeline
(`src/onnx.py`, class `OnnxConverter`) together with proofs about the
specification claims.

The embedding covers:
* the port-name and symbolic-axis declarations built by `_convert_encoder`,
  `_convert_decoder` and `_convert_decoder_pkv` (pure list/string computations,
  translated line by line from the source);
* the verification step (`np.testing.assert_allclose` with rtol 1e-3 and
  atol 1e-5) and the sequential control flow of `convert_to_onnx`,
  `optimize_onnx_model` and `quantize_onnx_model`.  The numeric tensors that
  the external libraries (torch, onnxruntime) produce are abstracted as data
  (lists of rationals) or as opaque function parameters; the Python-level
  control flow around them (which call runs, in which order, which comparison
  gates progress, what file writes happen) is embedded faithfully;
* the projection-head extraction of `OnnxConverter.__init__`
  (lines 29-33 of `src/onnx.py`).
-/

namespace MarianOnnx

/-- The four logical artifact roles, in the order the pipeline processes them
(`convert_to_onnx`, `optimize_onnx_model` and `quantize_onnx_model` all handle
encoder, decoder, decoder_pkv, lm_head in this order). -/
inductive Role
  | encoder
  | decoder
  | decoderPkv
  | lmHead
  deriving DecidableEq

/-- Pipeline processing order of the four roles. -/
def roleOrder : List Role := [Role.encoder, Role.decoder, Role.decoderPkv, Role.lmHead]

/-- Position of a role in the pipeline order. -/
def roleIdx : Role → ℕ
  | Role.encoder => 0
  | Role.decoder => 1
  | Role.decoderPkv => 2
  | Role.lmHead => 3

/-- The axis-binding dict used for ordinary sequence tensors,
`dyax_gen = [{0: batch_size, 1: seq_length}]` in `_convert_decoder_pkv`
(the same binding literal is used in `_convert_encoder`, `_convert_decoder`
and `_convert_lm_head`).  Axes absent from the list are fixed-size. -/
def dyax_gen : List (ℕ × String) := [(0, "batch_size"), (1, "seq_length")]

/-- The axis-binding dict used for cache tensors,
`dyax_pkv = [{0: batch_size, 2: seq_length}]` in `_convert_decoder_pkv`
(also used for the 24 cache outputs in `_convert_decoder`). -/
def dyax_pkv : List (ℕ × String) := [(0, "batch_size"), (2, "seq_length")]

/-- `f"pkv_{i}"`: the name of the flattened cache tensor with flat index `i`. -/
def pkvName (i : ℕ) : String := "pkv_" ++ toString i

/-- `encoder_input_names` from `_convert_encoder`. -/
def encoder_input_names : List String := ["input_ids", "attention_mask"]

/-- `encoder_output_names` from `_convert_encoder`. -/
def encoder_output_names : List String := ["output"]

/-- `encoder_params_names = encoder_input_names + encoder_output_names`. -/
def encoder_params_names : List String := encoder_input_names ++ encoder_output_names

/-- The `dynamic_axes` association built in `_convert_encoder`:
`dict(zip(encoder_params_names, [{0: batch_size, 1: seq_length}]*len(...)))`.
The zip list is kept; the Python dict built from it has exactly these
key/value pairs (all keys are distinct). -/
def encoder_dynamic_axes : List (String × List (ℕ × String)) :=
  encoder_params_names.zip (List.replicate encoder_params_names.length dyax_gen)

/-- `decoder_input_names` from `_convert_decoder` (also the first three entries
of the cached decoder's input names in `_convert_decoder_pkv`). -/
def decoder_input_names : List String :=
  ["input_ids", "encoder_hidden_states", "encoder_attention_mask"]

/-- `decoder_output_names` from `_convert_decoder`:
`['output'] + [f"pkv_{i}" for i in range(24)]`.  Note the hardcoded 24,
independent of the model's number of decoder layers. -/
def decoder_output_names : List String := "output" :: (List.range 24).map pkvName

/-- `decoder_params_names = decoder_input_names + decoder_output_names`. -/
def decoder_params_names : List String := decoder_input_names ++ decoder_output_names

/-- `size_axes` from `_convert_decoder`:
`[{0: batch_size, 1: seq_length}]*4 + [{0: batch_size, 2: seq_length}]*24`. -/
def decoder_size_axes : List (List (ℕ × String)) :=
  List.replicate 4 dyax_gen ++ List.replicate 24 dyax_pkv

/-- The `dynamic_axes` association of `_convert_decoder`
(`dict(zip(decoder_params_names, size_axes))`, kept as the zip list;
all 28 keys are distinct). -/
def decoder_dynamic_axes : List (String × List (ℕ × String)) :=
  decoder_params_names.zip decoder_size_axes

/-- `names_past_key_values = [f"pkv_{i}" for i in range(len(flat_past_key_values))]`
from `_convert_decoder_pkv`, where `flat_past_key_values` flattens
`((pkv, pkv, pkv, pkv),) * num_decoder_layers`, hence has length `4 * L`. -/
def names_past_key_values (L : ℕ) : List String := (List.range (4 * L)).map pkvName

/-- `decoder_input_names + names_past_key_values` from `_convert_decoder_pkv`. -/
def decoder_pkv_input_names (L : ℕ) : List String :=
  decoder_input_names ++ names_past_key_values L

/-- The name of the cache output port with flat index `i` in
`_convert_decoder_pkv`: the loop appends `names_past_key_values[i]` when
`(i//2) % 2 != 0` and `names_past_key_values[i] + 'o'` otherwise. -/
def pkvOutName (i : ℕ) : String :=
  if (i / 2) % 2 ≠ 0 then pkvName i else pkvName i ++ "o"

/-- `decoder_output_names` from `_convert_decoder_pkv`:
`['output']` followed by the loop over `range(len(names_past_key_values))`. -/
def decoder_pkv_output_names (L : ℕ) : List String :=
  "output" :: (List.range (4 * L)).map pkvOutName

/-- `decoder_param_names = decoder_input_names + decoder_output_names`
from `_convert_decoder_pkv`. -/
def decoder_pkv_param_names (L : ℕ) : List String :=
  decoder_pkv_input_names L ++ decoder_pkv_output_names L

/-- `dyax` from `_convert_decoder_pkv`:
`dyax_gen*len(decoder_inputs_raw) + dyax_pkv*len(flat_past_key_values)
 + dyax_gen + dyax_pkv*len(flat_past_key_values)`,
with `len(decoder_inputs_raw) = 3` and `len(flat_past_key_values) = 4 * L`. -/
def dyax (L : ℕ) : List (List (ℕ × String)) :=
  List.replicate 3 dyax_gen ++ List.replicate (4 * L) dyax_pkv ++
    List.replicate 1 dyax_gen ++ List.replicate (4 * L) dyax_pkv

/-- The `dynamic_axes` association of `_convert_decoder_pkv`
(`dict(zip(decoder_param_names, dyax))`, kept as the zip list; the only
duplicate keys are the cross-attention cache names, which appear once among
the inputs and once among the outputs with the identical binding `dyax_pkv`,
so the Python dict built from this list agrees with every entry of it). -/
def decoder_pkv_dynamic_axes (L : ℕ) : List (String × List (ℕ × String)) :=
  (decoder_pkv_param_names L).zip (dyax L)

/-- A tensor flattened to a list of rationals (the embedding of the numeric
arrays compared by `np.testing.assert_allclose`; real floats are modelled
by exact rationals). -/
abbrev Tensor := List ℚ

/-- The relative tolerance `rtol=1e-03` passed to every
`np.testing.assert_allclose` call in `src/onnx.py`. -/
def RTOL : ℚ := 1 / 1000

/-- The absolute tolerance `atol=1e-05` passed to every
`np.testing.assert_allclose` call in `src/onnx.py`. -/
def ATOL : ℚ := 1 / 100000

/-- One element of the `assert_allclose` comparison: numpy accepts the pair
`(actual, desired)` when `|actual - desired| <= atol + rtol * |desired|`. -/
def closeElem (actual desired : ℚ) : Bool :=
  decide (|actual - desired| ≤ ATOL + RTOL * |desired|)

/-- Elementwise `np.testing.assert_allclose(actual, desired, rtol=1e-03,
atol=1e-05)` viewed as a predicate: shapes (here: lengths) must agree and
every element pair must satisfy `closeElem`.  The Python call raises exactly
when this returns `false`. -/
def allclose (actual desired : Tensor) : Bool :=
  decide (actual.length = desired.length) &&
    (actual.zip desired).all (fun p => closeElem p.1 p.2)

/-- The eager primary output and the exported-graph primary output produced
for one role during its `_convert_*` call.  Both tensors come from external
libraries (torch eager execution and `onnxruntime.InferenceSession.run`),
so the embedding takes them as given data; the comparison the code performs
on them is `allclose`. -/
structure RoleRun where
  eagerPrimary : Tensor
  onnxPrimary : Tensor

/-- The data of one `convert_to_onnx` run: the eager/graph output pair of each
of the four `_convert_*` calls. -/
structure ConvertRun where
  encoderRun : RoleRun
  decoderRun : RoleRun
  decoderPkvRun : RoleRun
  lmHeadRun : RoleRun

/-- The run data belonging to a role. -/
def ConvertRun.roleRun (d : ConvertRun) : Role → RoleRun
  | Role.encoder => d.encoderRun
  | Role.decoder => d.decoderRun
  | Role.decoderPkv => d.decoderPkvRun
  | Role.lmHead => d.lmHeadRun

/-- The verification at the end of a `_convert_*` call: `assert_allclose`
of the eager primary output against `onnx_outputs[0]`.  Returns `true` when
the assertion passes and `false` when it raises. -/
def convertStep (d : ConvertRun) (r : Role) : Bool :=
  allclose (d.roleRun r).eagerPrimary (d.roleRun r).onnxPrimary

/-- Sequential execution of the `_convert_*` calls: Python executes them in
order and an `assert_allclose` failure raises, so no later call runs.  The
result is the list of calls that actually executed, together with the role
whose verification raised (if any). -/
def convertSeq (d : ConvertRun) : List Role → List Role × Option Role
  | [] => ([], none)
  | r :: rs =>
      if convertStep d r then
        let p := convertSeq d rs
        (r :: p.1, p.2)
      else ([r], some r)

/-- `convert_to_onnx` (lines 194-198 of `src/onnx.py`): runs the four
`_convert_*` methods in pipeline order. -/
def convert_to_onnx (d : ConvertRun) : List Role × Option Role :=
  convertSeq d roleOrder

/-- The `onnx_inputs` dict used to re-execute the cached decoder in
`_convert_decoder_pkv`: `dict(zip(decoder_input_names, arrays))` followed by
`onnx_inputs.pop('encoder_hidden_states')`.  All input names are distinct, so
popping the key equals filtering the pair out of the zip list. -/
def convert_decoder_pkv_onnx_inputs (L : ℕ) (vals : List Tensor) :
    List (String × Tensor) :=
  ((decoder_pkv_input_names L).zip vals).filter
    (fun p => decide (p.1 ≠ "encoder_hidden_states"))

/-- The verification of `_convert_decoder_pkv`: the eager decoder
`self.decoder_pkv(*decoder_inputs)` is called on the full positional input
tuple (which includes `encoder_hidden_states` in position 1), the session is
run on the name-keyed inputs with `encoder_hidden_states` popped, and the
primary outputs are compared with `assert_allclose`.  The eager decoder and
the session are external computations, taken as function parameters. -/
def convert_decoder_pkv_verify (L : ℕ) (eagerDecoder : List Tensor → Tensor)
    (session : List (String × Tensor) → Tensor) (vals : List Tensor) : Bool :=
  allclose (eagerDecoder vals) (session (convert_decoder_pkv_onnx_inputs L vals))

/-- Observable events of `optimize_onnx_model`: creating the
`InferenceSession` with `optimized_model_filepath` set writes the role's
`.opt.onnx` file.  The source contains no warning or fallback code at all;
the `warnedFallback` constructor exists only so that its absence from every
trace can be stated. -/
inductive OptEvent
  | wroteOptFile (r : Role)
  | warnedFallback (r : Role)
  deriving DecidableEq

/-- Sequential execution of the four `InferenceSession` constructions in
`optimize_onnx_model` (lines 201-215): each successful construction writes
that role's optimized file; a failing construction raises and, with no
try/except around it, aborts the method.  `fails r = true` means constructing
the session for role `r` raises. -/
def optimizeSeq (fails : Role → Bool) : List Role → List OptEvent × Option Role
  | [] => ([], none)
  | r :: rs =>
      if fails r then ([], some r)
      else
        let p := optimizeSeq fails rs
        (OptEvent.wroteOptFile r :: p.1, p.2)

/-- `optimize_onnx_model`: optimizes the four roles in pipeline order. -/
def optimize_onnx_model (fails : Role → Bool) : List OptEvent × Option Role :=
  optimizeSeq fails roleOrder

/-- Observable events of `quantize_onnx_model`: the four `onnx.load` calls,
the four `quantize` calls, and the four `onnx.save_model` calls that write
the `.opt.quant.onnx` files. -/
inductive QuantEvent
  | loaded (r : Role)
  | quantized (r : Role)
  | savedQuant (r : Role)
  deriving DecidableEq

/-- Whether an event is the write of a quantized artifact file. -/
def isSaveEvent : QuantEvent → Bool
  | QuantEvent.savedQuant _ => true
  | _ => false

/-- Sequential execution of the four `quantize` calls in
`quantize_onnx_model`: each call either succeeds or raises; with no
try/except, the first raise aborts the method.  `fails r = true` means the
`quantize` call for role `r` raises. -/
def quantizeSeq (fails : Role → Bool) : List Role → List QuantEvent × Option Role
  | [] => ([], none)
  | r :: rs =>
      if fails r then ([], some r)
      else
        let p := quantizeSeq fails rs
        (QuantEvent.quantized r :: p.1, p.2)

/-- `quantize_onnx_model` (lines 217-254 of `src/onnx.py`): loads the four
optimized artifacts, quantizes all four in order, and only afterwards saves
the four quantized files; any raise in a `quantize` call propagates before
any `onnx.save_model` executes. -/
def quantize_onnx_model (fails : Role → Bool) : List QuantEvent × Option Role :=
  let loads := roleOrder.map QuantEvent.loaded
  let q := quantizeSeq fails roleOrder
  match q.2 with
  | some r => (loads ++ q.1, some r)
  | none => (loads ++ q.1 ++ roleOrder.map QuantEvent.savedQuant, none)

/-- A failure oracle that makes exactly one role's external call raise. -/
def failsOnly (r0 : Role) : Role → Bool := fun r => decide (r = r0)

/-- The weights of the pretrained model that the projection-head extraction
reads: `model.lm_head.weight` (shape `[vocab, d_model]`, the output
projection, a bias-free torch Linear) and `model.final_logits_bias`
(shape `[1, vocab]`, broadcast over rows when added). -/
structure MarianParams (dModel vocab : ℕ) where
  lmHeadWeight : Fin vocab → Fin dModel → ℚ
  finalLogitsBias : Fin vocab → ℚ

/-- A torch `nn.Linear` module after its parameters are fixed: `forward x`
computes `x @ weight.T + bias`. -/
structure TorchLinear (dIn dOut : ℕ) where
  weight : Fin dOut → Fin dIn → ℚ
  bias : Fin dOut → ℚ

/-- `nn.Linear.forward` on one row of the input. -/
def TorchLinear.forward {dIn dOut : ℕ} (l : TorchLinear dIn dOut)
    (x : Fin dIn → ℚ) : Fin dOut → ℚ :=
  fun j => (∑ k, l.weight j k * x k) + l.bias j

/-- Lines 29-33 of `src/onnx.py`: a fresh
`torch.nn.Linear(weight.shape[0], weight.shape[1], bias=True)` is created and
both its parameter tensors are then replaced wholesale
(`.weight.data = model.lm_head.weight`, `.bias.data = model.final_logits_bias`),
so the randomly initialized parameters of the constructor (whose in/out sizes
are even transposed) are discarded and the net parameters of the module are
exactly the model's output-projection weight and its final logit bias. -/
def buildLmHead {d v : ℕ} (M : MarianParams d v) : TorchLinear d v :=
  { weight := M.lmHeadWeight, bias := M.finalLogitsBias }

/-- The state `OnnxConverter.__init__` leaves behind, restricted to the parts
the projection-head claims concern: the pretrained model's weights and the
extracted `lm_head` module.  The constructor performs no write to the model's
own parameters (the decoder wrappers are built from `deepcopy`s and the
`lm_head` assignment writes the fresh module's `.data` fields), so the model
component is passed through unchanged. -/
structure ConverterInit (d v : ℕ) where
  model : MarianParams d v
  lm_head : TorchLinear d v

/-- The projection-head part of `OnnxConverter.__init__`. -/
def onnxConverterInit {d v : ℕ} (M : MarianParams d v) : ConverterInit d v :=
  { model := M, lm_head := buildLmHead M }

/-- The affine map the original model applies to decoder hidden states to
obtain vocabulary logits: `lm_head(hidden) + final_logits_bias` (Marian's
`lm_head` is bias-free and `final_logits_bias` is added to the logits). -/
def marianProjection {d v : ℕ} (M : MarianParams d v) (h : Fin d → ℚ) :
    Fin v → ℚ :=
  fun j => (∑ k, M.lmHeadWeight j k * h k) + M.finalLogitsBias j

/-- Concrete run data for the pipeline model: encoder agrees, the decoder
verification mismatches (`|1 - 0| > atol + rtol * 0`). -/
def runAgree : RoleRun := { eagerPrimary := [0], onnxPrimary := [0] }

/-- A role run whose outputs differ by 1, far beyond the tolerance. -/
def runMismatch : RoleRun := { eagerPrimary := [1], onnxPrimary := [0] }

/-- A `convert_to_onnx` run whose decoder verification fails. -/
def convertRunExample : ConvertRun :=
  { encoderRun := runAgree, decoderRun := runMismatch,
    decoderPkvRun := runAgree, lmHeadRun := runAgree }

/-- A constant eager decoder, used as a concrete witness input. -/
def constEager : List Tensor → Tensor := fun _ => [0]

/-- A constant graph-execution session, used as a concrete witness input. -/
def constSession : List (String × Tensor) → Tensor := fun _ => [0]

/-- Concrete model weights at `d_model = 1`, `vocab = 1` for witnesses. -/
def paramsExample : MarianParams 1 1 :=
  { lmHeadWeight := fun _ _ => 2, finalLogitsBias := fun _ => 3 }

/-- Appending a nonempty suffix changes a string (used for the `'o'`-suffixed
self-attention cache output names). -/
theorem append_o_ne (s : String) : ¬ s ++ "o" = s := by
  intro h
  have hl := congrArg String.length h
  rw [String.length_append, show String.length "o" = 1 from rfl] at hl
  omega

/-- Indexing past a left factor of an append. -/
theorem getElem?_append_right_len {α : Type} (l1 l2 : List α) (i : ℕ) :
    (l1 ++ l2)[l1.length + i]? = l2[i]? := by
  induction l1 with
  | nil => simp
  | cons a t ih =>
      have hidx : (a :: t).length + i = (t.length + i) + 1 := by
        simp [List.length_cons]
        omega
      rw [List.cons_append, hidx, List.getElem?_cons_succ]
      exact ih

/-- Indexing the mapped range underlying the flattened cache names. -/
theorem getElem?_map_range {α : Type} (f : ℕ → α) (n i : ℕ) (h : i < n) :
    ((List.range n).map f)[i]? = some (f i) := by
  simp [List.getElem?_map, List.getElem?_range, h]

/-- The flat cache input name at index `i` is `pkv_i`. -/
theorem names_past_key_values_getElem (L i : ℕ) (h : i < 4 * L) :
    (names_past_key_values L)[i]? = some (pkvName i) :=
  getElem?_map_range pkvName (4 * L) i h

/-- The cached decoder's output port at position `i + 1` is `pkvOutName i`. -/
theorem decoder_pkv_output_names_getElem (L i : ℕ) (h : i < 4 * L) :
    (decoder_pkv_output_names L)[i + 1]? = some (pkvOutName i) := by
  rw [decoder_pkv_output_names, List.getElem?_cons_succ]
  exact getElem?_map_range pkvOutName (4 * L) i h

/-- The cached decoder's input port at position `3 + i` is `pkv_i`. -/
theorem decoder_pkv_input_names_getElem (L i : ℕ) (h : i < 4 * L) :
    (decoder_pkv_input_names L)[3 + i]? = some (pkvName i) := by
  have hlen : decoder_input_names.length = 3 := rfl
  have happ := getElem?_append_right_len decoder_input_names (names_past_key_values L) i
  rw [hlen] at happ
  rw [decoder_pkv_input_names, happ]
  exact names_past_key_values_getElem L i h

/-- C1: for the cached decoder, within each four-entry cache group the output
port at flat index `i` reuses the input name `pkv_i` exactly when
`(i / 2) % 2 = 1` (equivalently `i % 4` is 2 or 3, the cross-attention
positions); otherwise the output port carries the suffixed name `pkv_i ++ "o"`,
which differs from the input name. -/
theorem cachedDecoderOutputPortNaming (L i : ℕ) (h : i < 4 * L) :
    (decoder_pkv_input_names L)[3 + i]? = some (pkvName i) ∧
    ((decoder_pkv_output_names L)[i + 1]? = some (pkvName i) ↔ (i / 2) % 2 = 1) ∧
    ((i / 2) % 2 = 1 ↔ i % 4 = 2 ∨ i % 4 = 3) ∧
    ((i / 2) % 2 ≠ 1 →
      (decoder_pkv_output_names L)[i + 1]? = some (pkvName i ++ "o") ∧
      ¬ pkvName i ++ "o" = pkvName i) := by
  have hout := decoder_pkv_output_names_getElem L i h
  refine ⟨decoder_pkv_input_names_getElem L i h, ?_, by omega, ?_⟩
  · constructor
    · intro he
      rw [hout] at he
      have heq := Option.some.inj he
      by_contra hne
      rw [pkvOutName, if_neg (by omega)] at heq
      exact append_o_ne _ heq
    · intro hp
      rw [hout, pkvOutName, if_pos (by omega)]
  · intro hp
    refine ⟨?_, append_o_ne _⟩
    rw [hout, pkvOutName, if_neg (by omega)]

/-- Witness for C1 at the concrete model size `L = 6` and flat index `i = 2`
(a cross-attention position, whose output port keeps the input name). -/
theorem cachedDecoderOutputPortNamingWitness :
    2 < 4 * 6 ∧
    ((decoder_pkv_input_names 6)[3 + 2]? = some (pkvName 2) ∧
     ((decoder_pkv_output_names 6)[2 + 1]? = some (pkvName 2) ↔ (2 / 2) % 2 = 1) ∧
     ((2 / 2) % 2 = 1 ↔ 2 % 4 = 2 ∨ 2 % 4 = 3) ∧
     ((2 / 2) % 2 ≠ 1 →
       (decoder_pkv_output_names 6)[2 + 1]? = some (pkvName 2 ++ "o") ∧
       ¬ pkvName 2 ++ "o" = pkvName 2)) :=
  ⟨by decide, cachedDecoderOutputPortNaming 6 2 (by decide)⟩

/-- Counterexample to C6 as stated: at `L = 1` decoder layer the claim would
require the no-cache decoder to declare `4 * 1 = 4` cache output ports
`pkv_0 … pkv_3`, but `_convert_decoder` hardcodes `range(24)` and always
declares 24 cache output ports, so the two port-name lists differ. -/
theorem cachePortCountCounterexample :
    (decoder_output_names.drop 1).length = 24 ∧
    (names_past_key_values 1).length = 4 * 1 ∧
    ¬ decoder_output_names.drop 1 = names_past_key_values 1 := by decide

/-- C6 (amended): the no-cache decoder always declares exactly 24 cache output
ports `pkv_0 … pkv_23` (hardcoded `range(24)`), independent of the model's
layer count `L`; the cached decoder declares `4 * L` cache input ports
`pkv_0 … pkv_{4L-1}`; the two name lists coincide exactly when `L = 6`. -/
theorem decoderCachePortNamesHardcoded :
    decoder_output_names = "output" :: (List.range 24).map pkvName ∧
    (∀ L, decoder_pkv_input_names L =
      decoder_input_names ++ (List.range (4 * L)).map pkvName) ∧
    (∀ L, (names_past_key_values L).length = 4 * L) ∧
    (∀ L, (decoder_output_names.drop 1 = names_past_key_values L ↔ L = 6)) := by
  refine ⟨rfl, fun L => rfl, fun L => by simp [names_past_key_values], fun L => ?_⟩
  constructor
  · intro h
    have hl := congrArg List.length h
    simp [decoder_output_names, names_past_key_values] at hl
    omega
  · rintro rfl
    rfl

/-- Zipping a list with a replicate of its own length pairs every element
with the constant. -/
theorem zip_replicate_const {α β : Type} (l : List α) (c : β) :
    l.zip (List.replicate l.length c) = l.map (fun a => (a, c)) := by
  induction l with
  | nil => rfl
  | cons a t ih => simp [List.replicate_succ, ih]

/-- `zip` distributes over `append` when the left factors have equal length. -/
theorem zip_append_len {α β : Type} (l1 : List α) (l2 : List β)
    (h : l1.length = l2.length) (t1 : List α) (t2 : List β) :
    (l1 ++ t1).zip (l2 ++ t2) = l1.zip l2 ++ t1.zip t2 := by
  induction l1 generalizing l2 with
  | nil =>
      cases l2 with
      | nil => simp
      | cons b m => simp at h
  | cons a l ih =>
      cases l2 with
      | nil => simp at h
      | cons b m =>
          simp only [List.length_cons, Nat.succ.injEq] at h
          simp [ih m h]

/-- The `dynamic_axes` zip list of `_convert_decoder_pkv`, unfolded: the three
raw inputs bind `dyax_gen`, the `4 * L` cache inputs bind `dyax_pkv`, the
primary output binds `dyax_gen`, and the `4 * L` cache outputs bind
`dyax_pkv`. -/
theorem map_range_zip_replicate {α β : Type} (f : ℕ → α) (c : β) (n : ℕ) :
    ((List.range n).map f).zip (List.replicate n c) =
      (List.range n).map (fun i => (f i, c)) := by
  have h : List.replicate n c = List.replicate ((List.range n).map f).length c := by
    simp
  rw [h, zip_replicate_const, List.map_map]
  rfl

/-- The `dynamic_axes` zip list of `_convert_decoder_pkv`, unfolded: the three
raw inputs bind `dyax_gen`, the `4 * L` cache inputs bind `dyax_pkv`, the
primary output binds `dyax_gen`, and the `4 * L` cache outputs bind
`dyax_pkv`. -/
theorem decoder_pkv_dynamic_axes_eq (L : ℕ) :
    decoder_pkv_dynamic_axes L =
      [("input_ids", dyax_gen), ("encoder_hidden_states", dyax_gen),
       ("encoder_attention_mask", dyax_gen)] ++
      (List.range (4 * L)).map (fun i => (pkvName i, dyax_pkv)) ++
      [("output", dyax_gen)] ++
      (List.range (4 * L)).map (fun i => (pkvOutName i, dyax_pkv)) := by
  have hmain :
      (names_past_key_values L ++ decoder_pkv_output_names L).zip
        (List.replicate (4 * L) dyax_pkv ++
          (List.replicate 1 dyax_gen ++ List.replicate (4 * L) dyax_pkv)) =
      (names_past_key_values L).zip (List.replicate (4 * L) dyax_pkv) ++
        (decoder_pkv_output_names L).zip
          (List.replicate 1 dyax_gen ++ List.replicate (4 * L) dyax_pkv) := by
    refine zip_append_len _ _ ?_ _ _
    simp [names_past_key_values]
  have hin : (names_past_key_values L).zip (List.replicate (4 * L) dyax_pkv) =
      (List.range (4 * L)).map (fun i => (pkvName i, dyax_pkv)) := by
    rw [names_past_key_values]
    exact map_range_zip_replicate pkvName dyax_pkv (4 * L)
  have hout : (decoder_pkv_output_names L).zip
      (List.replicate 1 dyax_gen ++ List.replicate (4 * L) dyax_pkv) =
      ("output", dyax_gen) ::
        (List.range (4 * L)).map (fun i => (pkvOutName i, dyax_pkv)) := by
    rw [decoder_pkv_output_names]
    simp only [List.replicate_succ, List.replicate_zero, List.cons_append,
      List.nil_append, List.zip_cons_cons]
    rw [map_range_zip_replicate pkvOutName dyax_pkv (4 * L)]
  show (decoder_pkv_param_names L).zip (dyax L) = _
  rw [decoder_pkv_param_names, decoder_pkv_input_names, dyax]
  simp only [List.append_assoc]
  rw [zip_append_len decoder_input_names (List.replicate 3 dyax_gen) rfl]
  rw [hmain, hin, hout]
  rfl

/-- Counterexample to C3 as stated: the claim requires every named port of the
no-cache decoder to bind axis 0 to batch_size and axis 1 to seq_length, but
`_convert_decoder` gives its cache output port `pkv_0` (position 4 of the zip
list, right after the three inputs and `output`) the cache binding
`dyax_pkv = [(0, batch_size), (2, seq_length)]`, which differs from
`dyax_gen`. -/
theorem noCacheDecoderCacheAxisCounterexample :
    decoder_dynamic_axes[4]? = some (pkvName 0, dyax_pkv) ∧
    ¬ decoder_dynamic_axes[4]? = some (pkvName 0, dyax_gen) ∧
    ¬ dyax_pkv = dyax_gen := by decide

/-- C3 (amended): the encoder binds every port to
`[(0, batch_size), (1, seq_length)]`; the no-cache decoder binds its three
inputs and `output` that way but binds each of its 24 cache output ports to
`[(0, batch_size), (2, seq_length)]`; the cached decoder binds its non-cache
ports (token ids, encoder hidden states, encoder mask, output) to
`[(0, batch_size), (1, seq_length)]` and every cache port — all `4 * L`
inputs and all `4 * L` outputs — to `[(0, batch_size), (2, seq_length)]`,
with axes 1 and 3 left unbound (fixed-size). -/
theorem declaredAxisBindings :
    (∀ p ∈ encoder_dynamic_axes, p.2 = dyax_gen) ∧
    decoder_dynamic_axes =
      [("input_ids", dyax_gen), ("encoder_hidden_states", dyax_gen),
       ("encoder_attention_mask", dyax_gen), ("output", dyax_gen)] ++
      (List.range 24).map (fun i => (pkvName i, dyax_pkv)) ∧
    (∀ L, decoder_pkv_dynamic_axes L =
      [("input_ids", dyax_gen), ("encoder_hidden_states", dyax_gen),
       ("encoder_attention_mask", dyax_gen)] ++
      (List.range (4 * L)).map (fun i => (pkvName i, dyax_pkv)) ++
      [("output", dyax_gen)] ++
      (List.range (4 * L)).map (fun i => (pkvOutName i, dyax_pkv))) :=
  ⟨by decide, by decide, decoder_pkv_dynamic_axes_eq⟩

/-- C2: every role's verification compares the eager primary output with the
exported graph's primary output elementwise at rtol 1e-3 / atol 1e-5
(`convertStep` is `allclose` with `RTOL` and `ATOL`), and a mismatch raises:
`convert_to_onnx` ends in an error naming a role at or before the mismatching
one, and no conversion step after the mismatching role executes. -/
theorem verificationMismatchHaltsPipeline (d : ConvertRun) (r : Role)
    (h : convertStep d r = false) :
    (∃ r0, (convert_to_onnx d).2 = some r0 ∧ convertStep d r0 = false ∧
      roleIdx r0 ≤ roleIdx r) ∧
    ∀ r2, roleIdx r < roleIdx r2 → r2 ∉ (convert_to_onnx d).1 := by
  cases r with
  | encoder =>
      have hc : convert_to_onnx d = ([Role.encoder], some Role.encoder) := by
        simp [convert_to_onnx, convertSeq, roleOrder, h]
      refine ⟨⟨Role.encoder, by rw [hc], h, le_rfl⟩, ?_⟩
      intro r2 h2 hm
      rw [hc] at hm
      simp at hm
      subst hm
      simp [roleIdx] at h2
  | decoder =>
      cases hb1 : convertStep d Role.encoder with
      | false =>
          have hc : convert_to_onnx d = ([Role.encoder], some Role.encoder) := by
            simp [convert_to_onnx, convertSeq, roleOrder, hb1]
          refine ⟨⟨Role.encoder, by rw [hc], hb1, by simp [roleIdx]⟩, ?_⟩
          intro r2 h2 hm
          rw [hc] at hm
          simp at hm
          subst hm
          simp [roleIdx] at h2
      | true =>
          have hc : convert_to_onnx d =
              ([Role.encoder, Role.decoder], some Role.decoder) := by
            simp [convert_to_onnx, convertSeq, roleOrder, hb1, h]
          refine ⟨⟨Role.decoder, by rw [hc], h, le_rfl⟩, ?_⟩
          intro r2 h2 hm
          rw [hc] at hm
          simp at hm
          rcases hm with rfl | rfl <;> simp [roleIdx] at h2
  | decoderPkv =>
      cases hb1 : convertStep d Role.encoder with
      | false =>
          have hc : convert_to_onnx d = ([Role.encoder], some Role.encoder) := by
            simp [convert_to_onnx, convertSeq, roleOrder, hb1]
          refine ⟨⟨Role.encoder, by rw [hc], hb1, by simp [roleIdx]⟩, ?_⟩
          intro r2 h2 hm
          rw [hc] at hm
          simp at hm
          subst hm
          simp [roleIdx] at h2
      | true =>
          cases hb2 : convertStep d Role.decoder with
          | false =>
              have hc : convert_to_onnx d =
                  ([Role.encoder, Role.decoder], some Role.decoder) := by
                simp [convert_to_onnx, convertSeq, roleOrder, hb1, hb2]
              refine ⟨⟨Role.decoder, by rw [hc], hb2, by simp [roleIdx]⟩, ?_⟩
              intro r2 h2 hm
              rw [hc] at hm
              simp at hm
              rcases hm with rfl | rfl <;> simp [roleIdx] at h2
          | true =>
              have hc : convert_to_onnx d =
                  ([Role.encoder, Role.decoder, Role.decoderPkv],
                    some Role.decoderPkv) := by
                simp [convert_to_onnx, convertSeq, roleOrder, hb1, hb2, h]
              refine ⟨⟨Role.decoderPkv, by rw [hc], h, le_rfl⟩, ?_⟩
              intro r2 h2 hm
              rw [hc] at hm
              simp at hm
              rcases hm with rfl | rfl | rfl <;> simp [roleIdx] at h2
  | lmHead =>
      cases hb1 : convertStep d Role.encoder with
      | false =>
          have hc : convert_to_onnx d = ([Role.encoder], some Role.encoder) := by
            simp [convert_to_onnx, convertSeq, roleOrder, hb1]
          refine ⟨⟨Role.encoder, by rw [hc], hb1, by simp [roleIdx]⟩, ?_⟩
          intro r2 h2 hm
          rw [hc] at hm
          simp at hm
          subst hm
          simp [roleIdx] at h2
      | true =>
          cases hb2 : convertStep d Role.decoder with
          | false =>
              have hc : convert_to_onnx d =
                  ([Role.encoder, Role.decoder], some Role.decoder) := by
                simp [convert_to_onnx, convertSeq, roleOrder, hb1, hb2]
              refine ⟨⟨Role.decoder, by rw [hc], hb2, by simp [roleIdx]⟩, ?_⟩
              intro r2 h2 hm
              rw [hc] at hm
              simp at hm
              rcases hm with rfl | rfl <;> simp [roleIdx] at h2
          | true =>
              cases hb3 : convertStep d Role.decoderPkv with
              | false =>
                  have hc : convert_to_onnx d =
                      ([Role.encoder, Role.decoder, Role.decoderPkv],
                        some Role.decoderPkv) := by
                    simp [convert_to_onnx, convertSeq, roleOrder, hb1, hb2, hb3]
                  refine ⟨⟨Role.decoderPkv, by rw [hc], hb3, by simp [roleIdx]⟩, ?_⟩
                  intro r2 h2 hm
                  rw [hc] at hm
                  simp at hm
                  rcases hm with rfl | rfl | rfl <;> simp [roleIdx] at h2
              | true =>
                  have hc : convert_to_onnx d =
                      ([Role.encoder, Role.decoder, Role.decoderPkv, Role.lmHead],
                        some Role.lmHead) := by
                    simp [convert_to_onnx, convertSeq, roleOrder, hb1, hb2, hb3, h]
                  refine ⟨⟨Role.lmHead, by rw [hc], h, le_rfl⟩, ?_⟩
                  intro r2 h2 hm
                  rw [hc] at hm
                  simp at hm
                  rcases hm with rfl | rfl | rfl | rfl <;> simp [roleIdx] at h2

/-- Witness for C2: a run whose decoder verification mismatches
(eager `[1]` against graph `[0]`, beyond `atol + rtol * 0`). -/
theorem verificationMismatchHaltsPipelineWitness :
    convertStep convertRunExample Role.decoder = false ∧
    ((∃ r0, (convert_to_onnx convertRunExample).2 = some r0 ∧
        convertStep convertRunExample r0 = false ∧
        roleIdx r0 ≤ roleIdx Role.decoder) ∧
      ∀ r2, roleIdx Role.decoder < roleIdx r2 →
        r2 ∉ (convert_to_onnx convertRunExample).1) :=
  ⟨by norm_num [convertStep, ConvertRun.roleRun, convertRunExample, runMismatch,
      allclose, closeElem, RTOL, ATOL],
    verificationMismatchHaltsPipeline convertRunExample Role.decoder
      (by norm_num [convertStep, ConvertRun.roleRun, convertRunExample,
        runMismatch, allclose, closeElem, RTOL, ATOL])⟩

/-- A role whose optimization fails never gets its `.opt` file written. -/
theorem optimizeSeq_not_written (fails : Role → Bool) (r : Role)
    (h : fails r = true) :
    ∀ rs, OptEvent.wroteOptFile r ∉ (optimizeSeq fails rs).1 := by
  intro rs
  induction rs with
  | nil => simp [optimizeSeq]
  | cons a t ih =>
      cases ha : fails a with
      | true => simp [optimizeSeq, ha]
      | false =>
          simp only [optimizeSeq, ha, Bool.false_eq_true, if_false]
          intro hm
          simp [List.mem_cons] at hm
          rcases hm with rfl | hm
          · rw [h] at ha
            cases ha
          · exact ih hm

/-- `optimize_onnx_model` contains no warning or fallback path. -/
theorem optimizeSeq_no_warn (fails : Role → Bool) :
    ∀ rs r2, OptEvent.warnedFallback r2 ∉ (optimizeSeq fails rs).1 := by
  intro rs
  induction rs with
  | nil => intro r2; simp [optimizeSeq]
  | cons a t ih =>
      intro r2
      cases ha : fails a with
      | true => simp [optimizeSeq, ha]
      | false =>
          simp only [optimizeSeq, ha, Bool.false_eq_true, if_false]
          intro hm
          simp [List.mem_cons] at hm
          exact ih r2 hm

/-- `optimizeSeq` finishes without raising exactly when no processed role
fails. -/
theorem optimizeSeq_none_iff (fails : Role → Bool) :
    ∀ rs, (optimizeSeq fails rs).2 = none ↔ ∀ r ∈ rs, fails r = false := by
  intro rs
  induction rs with
  | nil => simp [optimizeSeq]
  | cons a t ih =>
      cases ha : fails a with
      | true => simp [optimizeSeq, ha]
      | false => simp [optimizeSeq, ha, ih]

/-- Counterexample to C5 as stated: with the cached-decoder optimization
failing, `optimize_onnx_model` ends in a raised error (it does not fall
back), emits no warning event, and the projection head — a remaining role —
is never optimized. -/
theorem optimizationNoFallbackCounterexample :
    optimize_onnx_model (failsOnly Role.decoderPkv) =
      ([OptEvent.wroteOptFile Role.encoder, OptEvent.wroteOptFile Role.decoder],
        some Role.decoderPkv) ∧
    OptEvent.warnedFallback Role.decoderPkv ∉
      (optimize_onnx_model (failsOnly Role.decoderPkv)).1 ∧
    OptEvent.wroteOptFile Role.lmHead ∉
      (optimize_onnx_model (failsOnly Role.decoderPkv)).1 := by decide

/-- C5 (amended): a graph-optimization failure for any role aborts
`optimize_onnx_model` with the raised error (there is no fallback to the
unoptimized artifact and no warning; the source has no exception handling),
and the failing role's optimized artifact is never written. -/
theorem optimizationFailureAborts (fails : Role → Bool) (r : Role)
    (h : fails r = true) :
    (optimize_onnx_model fails).2 ≠ none ∧
    OptEvent.wroteOptFile r ∉ (optimize_onnx_model fails).1 ∧
    ∀ r2, OptEvent.warnedFallback r2 ∉ (optimize_onnx_model fails).1 := by
  refine ⟨?_, optimizeSeq_not_written fails r h roleOrder,
    fun r2 => optimizeSeq_no_warn fails roleOrder r2⟩
  intro hn
  have hf := (optimizeSeq_none_iff fails roleOrder).mp hn r
    (by cases r <;> simp [roleOrder])
  rw [h] at hf
  cases hf

/-- Witness for C5 (amended) at a run whose cached-decoder optimization
fails. -/
theorem optimizationFailureAbortsWitness :
    failsOnly Role.decoderPkv Role.decoderPkv = true ∧
    ((optimize_onnx_model (failsOnly Role.decoderPkv)).2 ≠ none ∧
     OptEvent.wroteOptFile Role.decoderPkv ∉
       (optimize_onnx_model (failsOnly Role.decoderPkv)).1 ∧
     ∀ r2, OptEvent.warnedFallback r2 ∉
       (optimize_onnx_model (failsOnly Role.decoderPkv)).1) :=
  ⟨by decide,
    optimizationFailureAborts (failsOnly Role.decoderPkv) Role.decoderPkv
      (by decide)⟩

/-- Every event emitted by the quantization loop is a `quantized` event. -/
theorem quantizeSeq_all_quantized (fails : Role → Bool) :
    ∀ rs e, e ∈ (quantizeSeq fails rs).1 → ∃ r, e = QuantEvent.quantized r := by
  intro rs
  induction rs with
  | nil =>
      intro e he
      simp [quantizeSeq] at he
  | cons a t ih =>
      intro e he
      cases ha : fails a with
      | true => simp [quantizeSeq, ha] at he
      | false =>
          simp only [quantizeSeq, ha, Bool.false_eq_true, if_false] at he
          simp [List.mem_cons] at he
          rcases he with rfl | he
          · exact ⟨a, rfl⟩
          · exact ih e he

/-- The quantization loop finishes without raising exactly when no processed
role fails. -/
theorem quantizeSeq_none_iff (fails : Role → Bool) :
    ∀ rs, (quantizeSeq fails rs).2 = none ↔ ∀ r ∈ rs, fails r = false := by
  intro rs
  induction rs with
  | nil => simp [quantizeSeq]
  | cons a t ih =>
      cases ha : fails a with
      | true => simp [quantizeSeq, ha]
      | false => simp [quantizeSeq, ha, ih]

/-- Counterexample to C4 as stated: with only the decoder's quantization
failing, the encoder's quantization already succeeded, yet no role's
`.opt.quant` artifact is written — the other roles are blocked (the cached
decoder is not even quantized) and the method ends in the raised error. -/
theorem quantizationNotIndependentCounterexample :
    quantize_onnx_model (failsOnly Role.decoder) =
      ([QuantEvent.loaded Role.encoder, QuantEvent.loaded Role.decoder,
        QuantEvent.loaded Role.decoderPkv, QuantEvent.loaded Role.lmHead,
        QuantEvent.quantized Role.encoder], some Role.decoder) ∧
    QuantEvent.savedQuant Role.encoder ∉
      (quantize_onnx_model (failsOnly Role.decoder)).1 ∧
    QuantEvent.savedQuant Role.lmHead ∉
      (quantize_onnx_model (failsOnly Role.decoder)).1 ∧
    QuantEvent.quantized Role.decoderPkv ∉
      (quantize_onnx_model (failsOnly Role.decoder)).1 := by decide

/-- C4 (amended): quantization is not independent across roles — if the
`quantize` call of any role raises, `quantize_onnx_model` aborts with the
error and no quantized artifact file is written for any role, including
roles whose quantization had already succeeded. -/
theorem quantizationFailureBlocksAllRoles (fails : Role → Bool) (r : Role)
    (h : fails r = true) :
    (quantize_onnx_model fails).2 ≠ none ∧
    ∀ r2, QuantEvent.savedQuant r2 ∉ (quantize_onnx_model fails).1 := by
  have hq : (quantizeSeq fails roleOrder).2 ≠ none := by
    intro hn
    have hf := (quantizeSeq_none_iff fails roleOrder).mp hn r
      (by cases r <;> simp [roleOrder])
    rw [h] at hf
    cases hf
  cases ho : (quantizeSeq fails roleOrder).2 with
  | none => exact absurd ho hq
  | some r0 =>
      constructor
      · simp [quantize_onnx_model, ho]
      · intro r2 hm
        simp only [quantize_onnx_model, ho] at hm
        rcases List.mem_append.mp hm with hl | hqm
        · rcases List.mem_map.mp hl with ⟨r3, _, he⟩
          cases he
        · rcases quantizeSeq_all_quantized fails roleOrder _ hqm with ⟨r3, he⟩
          cases he

/-- Witness for C4 (amended) at a run whose decoder quantization fails. -/
theorem quantizationFailureBlocksAllRolesWitness :
    failsOnly Role.decoder Role.decoder = true ∧
    ((quantize_onnx_model (failsOnly Role.decoder)).2 ≠ none ∧
      ∀ r2, QuantEvent.savedQuant r2 ∉
        (quantize_onnx_model (failsOnly Role.decoder)).1) :=
  ⟨by decide,
    quantizationFailureBlocksAllRoles (failsOnly Role.decoder) Role.decoder
      (by decide)⟩

/-- C10: `quantize_onnx_model` performs all four quantize calls before any
artifact write: in every run the trace splits into a save-free part followed
by saves only, and when any save occurs all four roles were already
quantized; consequently if any role's quantization raises, no `.opt.quant`
file is written for any role. -/
theorem quantizeSavesAfterAllQuantizeCalls (fails : Role → Bool) :
    (∃ pre post, (quantize_onnx_model fails).1 = pre ++ post ∧
      (∀ e ∈ pre, isSaveEvent e = false) ∧
      (∀ e ∈ post, isSaveEvent e = true) ∧
      (post ≠ [] → ∀ r, QuantEvent.quantized r ∈ pre)) ∧
    (∀ r, fails r = true →
      ∀ e ∈ (quantize_onnx_model fails).1, isSaveEvent e = false) := by
  have hns : ∀ e ∈ (roleOrder.map QuantEvent.loaded ++
      (quantizeSeq fails roleOrder).1), isSaveEvent e = false := by
    intro e he
    rcases List.mem_append.mp he with hl | hqm
    · rcases List.mem_map.mp hl with ⟨r3, _, he3⟩
      rw [← he3]
      rfl
    · rcases quantizeSeq_all_quantized fails roleOrder e hqm with ⟨r3, rfl⟩
      rfl
  cases ho : (quantizeSeq fails roleOrder).2 with
  | some r0 =>
      have htr : (quantize_onnx_model fails).1 =
          roleOrder.map QuantEvent.loaded ++ (quantizeSeq fails roleOrder).1 := by
        simp [quantize_onnx_model, ho]
      constructor
      · refine ⟨roleOrder.map QuantEvent.loaded ++ (quantizeSeq fails roleOrder).1,
          [], by simp [htr], hns, by simp, by simp⟩
      · intro r hr e he
        rw [htr] at he
        exact hns e he
  | none =>
      have hall := (quantizeSeq_none_iff fails roleOrder).mp ho
      have h1 : fails Role.encoder = false := hall _ (by simp [roleOrder])
      have h2 : fails Role.decoder = false := hall _ (by simp [roleOrder])
      have h3 : fails Role.decoderPkv = false := hall _ (by simp [roleOrder])
      have h4 : fails Role.lmHead = false := hall _ (by simp [roleOrder])
      have hseq : quantizeSeq fails roleOrder =
          ([QuantEvent.quantized Role.encoder, QuantEvent.quantized Role.decoder,
            QuantEvent.quantized Role.decoderPkv,
            QuantEvent.quantized Role.lmHead], none) := by
        simp [quantizeSeq, roleOrder, h1, h2, h3, h4]
      have htr : (quantize_onnx_model fails).1 =
          (roleOrder.map QuantEvent.loaded ++ (quantizeSeq fails roleOrder).1) ++
            roleOrder.map QuantEvent.savedQuant := by
        simp [quantize_onnx_model, ho]
      constructor
      · refine ⟨roleOrder.map QuantEvent.loaded ++ (quantizeSeq fails roleOrder).1,
          roleOrder.map QuantEvent.savedQuant, htr, hns, ?_, ?_⟩
        · intro e he
          rcases List.mem_map.mp he with ⟨r3, _, he3⟩
          rw [← he3]
          rfl
        · intro _ r
          rw [hseq]
          cases r <;> simp [roleOrder]
      · intro r hr
        rw [hall r (by cases r <;> simp [roleOrder])] at hr
        cases hr

/-- Witness for C10: with the encoder's quantization failing, no quantized
artifact write appears in the trace. -/
theorem quantizeSavesAfterAllQuantizeCallsWitness :
    failsOnly Role.encoder Role.encoder = true ∧
    (∀ e ∈ (quantize_onnx_model (failsOnly Role.encoder)).1,
      isSaveEvent e = false) :=
  ⟨by decide,
    (quantizeSavesAfterAllQuantizeCalls (failsOnly Role.encoder)).2
      Role.encoder (by decide)⟩

/-- C7: the verification of `_convert_decoder_pkv` executes the exported
graph on inputs from which `encoder_hidden_states` has been removed
(`onnx_inputs.pop`), while the eager cached decoder receives the full input
tuple whose second entry is bound to the port name `encoder_hidden_states`;
when the verification passes, the two primary outputs agree elementwise at
rtol 1e-3 / atol 1e-5. -/
theorem cachedDecoderVerifiedWithoutEncoderHiddenStates (L : ℕ)
    (eagerDecoder : List Tensor → Tensor)
    (session : List (String × Tensor) → Tensor) (vals : List Tensor)
    (h : convert_decoder_pkv_verify L eagerDecoder session vals = true) :
    (∀ t, ("encoder_hidden_states", t) ∉ convert_decoder_pkv_onnx_inputs L vals) ∧
    (decoder_pkv_input_names L)[1]? = some "encoder_hidden_states" ∧
    allclose (eagerDecoder vals)
      (session (convert_decoder_pkv_onnx_inputs L vals)) = true := by
  refine ⟨?_, rfl, h⟩
  intro t hm
  have hp := (List.mem_filter.mp hm).2
  simp at hp

/-- Witness for C7 at a concrete session and eager decoder that both return
the zero tensor. -/
theorem cachedDecoderVerifiedWithoutEncoderHiddenStatesWitness :
    convert_decoder_pkv_verify 1 constEager constSession [] = true ∧
    ((∀ t, ("encoder_hidden_states", t) ∉ convert_decoder_pkv_onnx_inputs 1 []) ∧
     (decoder_pkv_input_names 1)[1]? = some "encoder_hidden_states" ∧
     allclose (constEager [])
       (constSession (convert_decoder_pkv_onnx_inputs 1 [])) = true) :=
  ⟨by norm_num [convert_decoder_pkv_verify, convert_decoder_pkv_onnx_inputs,
      constEager, constSession, allclose, closeElem, RTOL, ATOL],
    cachedDecoderVerifiedWithoutEncoderHiddenStates 1 constEager constSession []
      (by norm_num [convert_decoder_pkv_verify, convert_decoder_pkv_onnx_inputs,
        constEager, constSession, allclose, closeElem, RTOL, ATOL])⟩

/-- C8: the extracted projection head's parameters are exactly the model's
output-projection weight and final logit bias, the head computes the same
affine map from hidden states to vocabulary logits as the original model's
projection, and the extraction leaves the model's own weights unchanged. -/
theorem lmHeadExtractionFaithful (d v : ℕ) (M : MarianParams d v) :
    (onnxConverterInit M).model = M ∧
    (onnxConverterInit M).lm_head.weight = M.lmHeadWeight ∧
    (onnxConverterInit M).lm_head.bias = M.finalLogitsBias ∧
    ∀ h, TorchLinear.forward (onnxConverterInit M).lm_head h =
      marianProjection M h :=
  ⟨rfl, rfl, rfl, fun _ => rfl⟩

end MarianOnnx
